import Mathlib

/-
Shallow embedding of the todo-bot command framework.

The embedding covers:
* the option capability layer of command/src/lib.rs (the ParseOption trait,
  its per-type implementations generated by the impl_parse_option_base,
  impl_parse_option_number and fn_parse_option macros, the Option<T>
  composition, and the parse_user extractor),
* the derive machinery of command-derive/src/lib.rs (schema validation in
  StructAttrs::from_derive_input / TupleField::try_from / validate_length,
  descriptor generation in StructAttrs::command / TupleField::to_command_option,
  and the generated invocation parser of StructAttrs::parse /
  TupleField::to_get), and
* the concrete TaskCommand / DoneCommand / TodoCommand of src/commands.rs.

Machine integers are modelled as Int with explicit reduction modulo 2 ^ w at
the points where the Rust code performs an `as` cast.  The f64 payload of the
Number wire variant is modelled as Lean Float; it is only ever carried around
(unwrapped from the Number newtype), never computed with.  The f32 instance of
the source (which narrows the f64 payload with an `as f32` cast) has no
faithful counterpart in this toolchain and is left out of the enumeration of
native types; no claim refers to it specifically.
-/

namespace TodoBot

/-- Marker kinds for twilight snowflake ids: Id of UserMarker, RoleMarker,
ChannelMarker and GenericMarker. -/
inductive Marker
  | user
  | role
  | channel
  | generic
deriving DecidableEq

/-- Twilight Id of m: a snowflake identifier tagged with a phantom marker.
The wrapped NonZeroU64 is modelled as Nat. -/
structure Id (m : Marker) where
  value : Nat
deriving DecidableEq

/-- Twilight CommandOptionType: the wire type tag of a command option. -/
inductive CommandOptionType
  | SubCommand
  | SubCommandGroup
  | String
  | Integer
  | Boolean
  | User
  | Channel
  | Role
  | Mentionable
  | Number
deriving DecidableEq

/-- Twilight interaction CommandOptionValue: a tagged wire value delivered in
an invocation.  The nested SubCommand / SubCommandGroup variants are never
produced for this bot's flat commands and are not modelled. -/
inductive CommandOptionValue
  | Boolean (b : Bool)
  | Channel (id : Id Marker.channel)
  | Integer (i : Int)
  | Mentionable (id : Id Marker.generic)
  | Number (n : Float)
  | Role (id : Id Marker.role)
  | String (s : String)
  | User (id : Id Marker.user)

/-- CommandOptionValue::kind: the type tag of a wire value. -/
def CommandOptionValue.kind : CommandOptionValue → CommandOptionType
  | .Boolean _ => .Boolean
  | .Channel _ => .Channel
  | .Integer _ => .Integer
  | .Mentionable _ => .Mentionable
  | .Number _ => .Number
  | .Role _ => .Role
  | .String _ => .String
  | .User _ => .User

/-- OptionError from command/src/lib.rs: the field-level parse error. -/
inductive OptionError
  | Missing
  | InvalidType (expected : CommandOptionType) (actual : CommandOptionType)
deriving DecidableEq

/-- CommandError from command/src/lib.rs: an OptionError attributed to a named
field, tagged by the field's implicit/explicit classification. -/
inductive CommandError
  | ImplicitOption (option : String) (error : OptionError)
  | ExplicitOption (option : String) (error : OptionError)
deriving DecidableEq

/-- Error from command/src/lib.rs: the top-level dispatch error. -/
inductive Error
  | InvalidCommand (name : String)
  | CommandError (command : String) (error : TodoBot.CommandError)
deriving DecidableEq

/-- The closed set of native types for which the source implements ParseOption
(the f32 instance is omitted, see the header comment). -/
inductive NativeType
  | u8
  | i8
  | u16
  | i16
  | u32
  | i32
  | u64
  | i64
  | usize
  | isize
  | f64
  | string
  | userId
  | roleId
  | channelId
  | mentionableId
deriving DecidableEq

/-- The TYPE associated constant of each ParseOption implementation. -/
def NativeType.TYPE : NativeType → CommandOptionType
  | .u8 | .i8 | .u16 | .i16 | .u32 | .i32 | .u64 | .i64 | .usize | .isize =>
    .Integer
  | .f64 => .Number
  | .string => .String
  | .userId => .User
  | .roleId => .Role
  | .channelId => .Channel
  | .mentionableId => .Mentionable

/-- The `as` cast applied to the i64 wire payload by the parse of each
integer-typed ParseOption implementation (fn_parse_option expands to
`value.clone() as $ty`).  usize/isize are 64-bit on the target.  For the
non-integer native types the function is unused and is the identity. -/
def NativeType.intCast : NativeType → Int → Int
  | .u8, v => v % 2 ^ 8
  | .i8, v => (v + 2 ^ 7) % 2 ^ 8 - 2 ^ 7
  | .u16, v => v % 2 ^ 16
  | .i16, v => (v + 2 ^ 15) % 2 ^ 16 - 2 ^ 15
  | .u32, v => v % 2 ^ 32
  | .i32, v => (v + 2 ^ 31) % 2 ^ 32 - 2 ^ 31
  | .u64, v => v % 2 ^ 64
  | .i64, v => v
  | .usize, v => v % 2 ^ 64
  | .isize, v => v
  | _, v => v

/-- A native value produced by some ParseOption implementation.  All integer
widths share the int constructor; the width-specific behaviour lives in
NativeType.intCast. -/
inductive NativeValue
  | int (v : Int)
  | float (v : Float)
  | str (s : String)
  | user (id : Id Marker.user)
  | role (id : Id Marker.role)
  | channel (id : Id Marker.channel)
  | mentionable (id : Id Marker.generic)

/-- The min_value/max_value payload type, twilight's
application::command::CommandOptionValue (Integer(i64) or Number(f64)). -/
inductive CommandOptionValueNum
  | Integer (x : Int)
  | Number (x : Float)

/-- OptionMeta from command/src/lib.rs: the metadata handed to an option
capability's describe operation. -/
structure OptionMeta where
  name : String
  description : String
  autocomplete : Bool
  required : Bool
  min_value : Option CommandOptionValueNum
  max_value : Option CommandOptionValueNum

/-- Twilight CommandOptionChoice; this bot always passes an empty choices
list. -/
inductive CommandOptionChoice
  | String (name : String) (value : String)
  | Integer (name : String) (value : Int)
  | Number (name : String) (value : Float)

/-- Twilight channel types; this bot always passes an empty channel_types
list, so only a few representative constructors are modelled. -/
inductive ChannelType
  | GuildText
  | Dm
  | GuildVoice

/-- Twilight BaseCommandOptionData. -/
structure BaseCommandOptionData where
  description : String
  name : String
  required : Bool

/-- Twilight NumberCommandOptionData. -/
structure NumberCommandOptionData where
  autocomplete : Bool
  choices : List CommandOptionChoice
  description : String
  max_value : Option CommandOptionValueNum
  min_value : Option CommandOptionValueNum
  name : String
  required : Bool

/-- Twilight ChoiceCommandOptionData. -/
structure ChoiceCommandOptionData where
  autocomplete : Bool
  choices : List CommandOptionChoice
  description : String
  name : String
  required : Bool

/-- Twilight ChannelCommandOptionData. -/
structure ChannelCommandOptionData where
  channel_types : List ChannelType
  description : String
  name : String
  required : Bool

/-- Twilight CommandOption: one option fragment of a command descriptor. -/
inductive CommandOption
  | String (data : ChoiceCommandOptionData)
  | Integer (data : NumberCommandOptionData)
  | Number (data : NumberCommandOptionData)
  | User (data : BaseCommandOptionData)
  | Role (data : BaseCommandOptionData)
  | Mentionable (data : BaseCommandOptionData)
  | Channel (data : ChannelCommandOptionData)

/-- The option (describe) operation of each ParseOption implementation:
reference kinds build BaseCommandOptionData, numeric kinds build
NumberCommandOptionData carrying autocomplete and bounds, String builds
ChoiceCommandOptionData, Channel builds ChannelCommandOptionData. -/
def ParseOption.option (t : NativeType) (meta : OptionMeta) : CommandOption :=
  match t with
  | .userId =>
    .User { description := meta.description, name := meta.name,
            required := meta.required }
  | .roleId =>
    .Role { description := meta.description, name := meta.name,
            required := meta.required }
  | .mentionableId =>
    .Mentionable { description := meta.description, name := meta.name,
                   required := meta.required }
  | .f64 =>
    .Number { autocomplete := meta.autocomplete, choices := [],
              description := meta.description, max_value := meta.max_value,
              min_value := meta.min_value, name := meta.name,
              required := meta.required }
  | .u8 | .i8 | .u16 | .i16 | .u32 | .i32 | .u64 | .i64 | .usize | .isize =>
    .Integer { autocomplete := meta.autocomplete, choices := [],
               description := meta.description, max_value := meta.max_value,
               min_value := meta.min_value, name := meta.name,
               required := meta.required }
  | .string =>
    .String { autocomplete := meta.autocomplete, choices := [],
              description := meta.description, name := meta.name,
              required := meta.required }
  | .channelId =>
    .Channel { channel_types := [], description := meta.description,
               name := meta.name, required := meta.required }

/-- The parse operation of each ParseOption implementation, as expanded from
fn_parse_option: None is Missing, the matching constructor is unwrapped (with
the `as` cast for the integer family and the Number newtype unwrap for f64),
and any other constructor is InvalidType with the implementation's TYPE as
expected and the wire value's kind as actual. -/
def ParseOption.parse (t : NativeType) (value : Option CommandOptionValue) :
    Except OptionError NativeValue :=
  match value with
  | none => .error OptionError.Missing
  | some v =>
    match t, v with
    | .string, .String s => .ok (.str s)
    | .f64, .Number n => .ok (.float n)
    | .userId, .User i => .ok (.user i)
    | .roleId, .Role i => .ok (.role i)
    | .channelId, .Channel i => .ok (.channel i)
    | .mentionableId, .Mentionable i => .ok (.mentionable i)
    | .u8, .Integer n => .ok (.int (NativeType.u8.intCast n))
    | .i8, .Integer n => .ok (.int (NativeType.i8.intCast n))
    | .u16, .Integer n => .ok (.int (NativeType.u16.intCast n))
    | .i16, .Integer n => .ok (.int (NativeType.i16.intCast n))
    | .u32, .Integer n => .ok (.int (NativeType.u32.intCast n))
    | .i32, .Integer n => .ok (.int (NativeType.i32.intCast n))
    | .u64, .Integer n => .ok (.int (NativeType.u64.intCast n))
    | .i64, .Integer n => .ok (.int (NativeType.i64.intCast n))
    | .usize, .Integer n => .ok (.int (NativeType.usize.intCast n))
    | .isize, .Integer n => .ok (.int (NativeType.isize.intCast n))
    | t, v => .error (OptionError.InvalidType t.TYPE v.kind)

/-- Rust Option::transpose specialised to Result payloads. -/
def optionTranspose {ε α : Type} : Option (Except ε α) → Except ε (Option α)
  | none => .ok none
  | some (.ok a) => .ok (some a)
  | some (.error e) => .error e

/-- The option (describe) operation of the Option of T implementation: force
required to false, delegate everything else to T. -/
def ParseOptionOptional.option (t : NativeType) (meta : OptionMeta) :
    CommandOption :=
  ParseOption.option t { meta with required := false }

/-- The parse operation of the Option of T implementation, literally
`value.map(Some).map(T::parse).transpose()`. -/
def ParseOptionOptional.parse (t : NativeType)
    (value : Option CommandOptionValue) :
    Except OptionError (Option NativeValue) :=
  optionTranspose ((value.map some).map (ParseOption.parse t))

/-- Twilight User; only the id field is consumed by this code. -/
structure User where
  id : Id Marker.user
deriving DecidableEq

/-- Twilight PartialMember; only the user field is consumed by this code. -/
structure PartialMember where
  user : Option User
deriving DecidableEq

/-- One entry of an invocation's option list: twilight CommandDataOption. -/
structure CommandDataOption where
  name : String
  value : CommandOptionValue

/-- Twilight CommandData; only the name and options fields are consumed. -/
structure CommandData where
  name : String
  options : List CommandDataOption

/-- Twilight ApplicationCommand: one invocation, with the context fields
(member, user) consumed by parse_user and the payload in data. -/
structure ApplicationCommand where
  data : CommandData
  member : Option PartialMember
  user : Option User

/-- parse_user from command/src/lib.rs: prefer the member sub-object's user,
then the top-level user, and fail with Missing when both are absent. -/
def parse_user (command : ApplicationCommand) :
    Except OptionError (Id Marker.user) :=
  match ((command.member.bind PartialMember.user).orElse
      (fun _ => command.user)).map User.id with
  | some i => .ok i
  | none => .error OptionError.Missing

/-- Number from command-derive/src/lib.rs: a min/max bound attribute. -/
inductive Number
  | I64 (x : Int)
  | F64 (x : Float)

/-- number_to_command_option_value from command-derive/src/lib.rs, at the
value level: the generated token stream evaluates to this option value. -/
def number_to_command_option_value :
    Option Number → Option CommandOptionValueNum
  | some (.I64 x) => some (.Integer x)
  | some (.F64 x) => some (.Number x)
  | none => none

/-- The declared Rust type of a field: either a native type directly or the
Option of a native type (the optional wrapper). -/
inductive FieldType
  | plain (t : NativeType)
  | optional (t : NativeType)

/-- The value a parsed field carries, matching FieldType. -/
inductive FieldValue
  | plain (v : NativeValue)
  | optional (v : Option NativeValue)

/-- Dispatch of the ParseOption::option call `<#ty as ParseOption>::option`
on a field's declared type. -/
def FieldType.option : FieldType → OptionMeta → CommandOption
  | .plain t, meta => ParseOption.option t meta
  | .optional t, meta => ParseOptionOptional.option t meta

/-- Dispatch of the ParseOption::parse call `<#ty as ParseOption>::parse`
on a field's declared type. -/
def FieldType.parse : FieldType → Option CommandOptionValue →
    Except OptionError FieldValue
  | .plain t, v => (ParseOption.parse t v).map FieldValue.plain
  | .optional t, v => (ParseOptionOptional.parse t v).map FieldValue.optional

/-- ExplicitOption from command-derive/src/lib.rs. -/
structure ExplicitOption where
  description : String
  autocomplete : Bool
  min : Option Number
  max : Option Number

/-- ParsedOption from command-derive/src/lib.rs.  The implicit syn::Path is
modelled by its denotation: the extractor function it names, producing the
field's value from the invocation. -/
inductive ParsedOption
  | Implicit (implicit : ApplicationCommand → Except OptionError FieldValue)
  | Explicit (option : ExplicitOption)

/-- TupleField from command-derive/src/lib.rs: one validated field. -/
structure TupleField where
  name : String
  ty : FieldType
  option : ParsedOption

/-- Whether a field is explicit (wire-supplied). -/
def TupleField.is_explicit (f : TupleField) : Bool :=
  match f.option with
  | .Explicit _ => true
  | .Implicit _ => false

/-- TupleField::to_command_option at the value level: an explicit field maps
through its capability's describe with required set true (the optional
wrapper then overrides it to false); an implicit field contributes nothing. -/
def TupleField.to_command_option (f : TupleField) : Option CommandOption :=
  match f.option with
  | .Explicit o =>
    some (FieldType.option f.ty
      { name := f.name, description := o.description,
        autocomplete := o.autocomplete, required := true,
        min_value := number_to_command_option_value o.min,
        max_value := number_to_command_option_value o.max })
  | .Implicit _ => none

/-- The BTreeMap built at the start of the generated parse, modelled as an
association list with insert-replace semantics (BTreeMap::insert replaces the
value of an existing key). -/
def mapInsert (m : List (String × CommandOptionValue)) (k : String)
    (v : CommandOptionValue) : List (String × CommandOptionValue) :=
  match m with
  | [] => [(k, v)]
  | (k1, v1) :: rest =>
    if k1 = k then (k, v) :: rest else (k1, v1) :: mapInsert rest k v

/-- Lookup in the modelled BTreeMap. -/
def mapGet (m : List (String × CommandOptionValue)) (k : String) :
    Option CommandOptionValue :=
  match m with
  | [] => none
  | (k1, v1) :: rest => if k1 = k then some v1 else mapGet rest k

/-- The map built by
`command.data.options.iter().map(|opt| (name, value)).collect::<BTreeMap>()`:
entries are inserted in list order, later insertions replacing earlier. -/
def buildOptionMap (options : List CommandDataOption) :
    List (String × CommandOptionValue) :=
  options.foldl (fun m opt => mapInsert m opt.name opt.value) []

/-- TupleField::to_get at the value level: an implicit field invokes its
extractor on the invocation and wraps errors as ImplicitOption; an explicit
field feeds the indexed-map lookup of its name to its capability's parse and
wraps errors as ExplicitOption. -/
def TupleField.to_get (command : ApplicationCommand)
    (options : List (String × CommandOptionValue)) (f : TupleField) :
    Except TodoBot.CommandError FieldValue :=
  match f.option with
  | .Implicit implicit =>
    (implicit command).mapError
      (fun error => CommandError.ImplicitOption f.name error)
  | .Explicit _ =>
    (FieldType.parse f.ty (mapGet options f.name)).mapError
      (fun error => CommandError.ExplicitOption f.name error)

/-- The field-by-field body of the generated parse, `Self(g1?, g2?, ...)` or
`Self { i1: g1?, ... }`: fields are evaluated left to right in schema order
and the first error aborts the whole parse through the ? operator. -/
def parse_options_list (command : ApplicationCommand)
    (options : List (String × CommandOptionValue)) :
    List TupleField → Except TodoBot.CommandError (List FieldValue)
  | [] => .ok []
  | f :: rest =>
    match TupleField.to_get command options f with
    | .error e => .error e
    | .ok v => (parse_options_list command options rest).map (fun vs => v :: vs)

/-- StructField from command-derive/src/lib.rs. -/
structure StructField where
  ident : String
  field : TupleField

/-- StructFields from command-derive/src/lib.rs. -/
inductive StructFields
  | Unit
  | Tuple (fields : List TupleField)
  | Struct (fields : List StructField)

/-- The ordered field list a StructFields value contributes to descriptor
generation and parsing (struct-style fields contribute their inner
TupleField). -/
def StructFields.fieldList : StructFields → List TupleField
  | .Unit => []
  | .Tuple fields => fields
  | .Struct fields => fields.map StructField.field

/-- Twilight CommandType. -/
inductive CommandType
  | ChatInput
  | User
  | Message

/-- Twilight Command: the wire descriptor registered with the platform. -/
structure Command where
  application_id : Option Nat
  default_permission : Option Bool
  description : String
  guild_id : Option Nat
  id : Option Nat
  kind : CommandType
  name : String
  options : List CommandOption
  version : Nat

/-- StructAttrs from command-derive/src/lib.rs: a validated schema. -/
structure StructAttrs where
  ident : String
  name : String
  version : Nat
  description : String
  fields : StructFields

/-- StructAttrs::command_options: walk the fields in order through
TupleField::to_command_option, keeping only the fragments of explicit
fields (flat_map over an Option is filterMap). -/
def StructAttrs.command_options (s : StructAttrs) : List CommandOption :=
  match s.fields with
  | .Unit => []
  | .Tuple fields => fields.filterMap TupleField.to_command_option
  | .Struct fields =>
    (fields.map StructField.field).filterMap TupleField.to_command_option

/-- StructAttrs::command at the value level: the generated command()
constructs the descriptor from NAME, DESCRIPTION, VERSION and the option
fragments. -/
def StructAttrs.command (s : StructAttrs) : Command :=
  { application_id := none, default_permission := none,
    description := s.description, guild_id := none, id := none,
    kind := CommandType.ChatInput, name := s.name,
    options := s.command_options, version := s.version }

/-- StructAttrs::parse at the value level: build the name-indexed option map
once, then evaluate the fields in schema order, fail-fast. -/
def StructAttrs.parse (s : StructAttrs) (command : ApplicationCommand) :
    Except TodoBot.CommandError (List FieldValue) :=
  let options := buildOptionMap command.data.options
  parse_options_list command options s.fields.fieldList

/-- One atomic darling::Error item.  A darling Error value is modelled as the
list of its flattened items: a single error is a one-element list and
`Error::multiple(errors).flatten()` is concatenation. -/
inductive DarlingError
  | missing_field (name : String)
  | custom (msg : String)
deriving DecidableEq

/-- validate_length from command-derive/src/lib.rs.  Rust str::len is the
UTF-8 byte length, hence utf8ByteSize. -/
def validate_length (value : String) (name : String) (min max : Nat) :
    Except DarlingError Unit :=
  if value.utf8ByteSize < min ∨ max < value.utf8ByteSize then
    .error (DarlingError.custom
      (name ++ " attribute must be between " ++ toString min ++ " and " ++
        toString max ++ " chars long"))
  else
    .ok ()

/-- The error list contributed by one validate_length call when pushed onto
an accumulator vec. -/
def lenViol (value : String) (name : String) (min max : Nat) :
    List DarlingError :=
  match validate_length value name min max with
  | .error e => [e]
  | .ok _ => []

/-- parse_doc_comments from command-derive/src/lib.rs: the attrs list is
modelled as the string literal of each forwarded doc attribute, in order; the
first one that is nonempty after trimming is the description fallback. -/
def parse_doc_comments (attrs : List String) : Option String :=
  match attrs with
  | [] => none
  | attr :: rest =>
    let s := attr.trim
    if s = "" then parse_doc_comments rest else some s

/-- Modelled from the spec: the snake-case conversion of the external
convert_case crate, which src names but does not contain.  The spec only says
names default to the identifier translated to snake case; for CamelCase
identifiers this inserts an underscore before each interior uppercase letter
and lowercases everything. -/
def snakeChars : List Char → Bool → List Char
  | [], _ => []
  | c :: rest, first =>
    if c.isUpper then
      (if first then [c.toLower] else ['_', c.toLower]) ++ snakeChars rest false
    else
      c :: snakeChars rest false

/-- Modelled from the spec: string-level snake-case conversion, see
snakeChars. -/
def toSnakeCase (s : String) : String :=
  String.mk (snakeChars s.data true)

/-- OptionAttrsRaw from command-derive/src/lib.rs: one field declaration as
darling hands it over, before validation. -/
structure OptionAttrsRaw where
  ident : Option String
  ty : FieldType
  name : Option String
  description : Option String
  implicit : Option (ApplicationCommand → Except OptionError FieldValue)
  autocomplete : Bool
  min : Option Number
  max : Option Number
  attrs : List String

/-- TupleField::try_from: a missing name aborts with just missing_field
(there is nothing to attribute errors to); the name length violation is
accumulated; an implicit field skips description handling entirely; an
explicit field resolves its description (doc fallback) where a missing
description aborts immediately through the ? operator, dropping the
accumulated name error, and otherwise accumulates the description length
violation; a nonempty accumulator fails the field. -/
def TupleField.try_from (field : OptionAttrsRaw) :
    Except (List DarlingError) TupleField :=
  match field.name with
  | none => .error [DarlingError.missing_field "name"]
  | some name =>
    match field.implicit with
    | some implicit =>
      if (lenViol name "name" 1 32).isEmpty then
        .ok { name := name, ty := field.ty,
              option := ParsedOption.Implicit implicit }
      else
        .error (lenViol name "name" 1 32)
    | none =>
      match field.description.orElse (fun _ => parse_doc_comments field.attrs)
        with
      | none => .error [DarlingError.missing_field "description"]
      | some description =>
        if (lenViol name "name" 1 32 ++
            lenViol description "description" 1 100).isEmpty then
          .ok { name := name, ty := field.ty,
                option := ParsedOption.Explicit
                  { description := description,
                    autocomplete := field.autocomplete,
                    min := field.min, max := field.max } }
        else
          .error (lenViol name "name" 1 32 ++
            lenViol description "description" 1 100)

/-- StructField::try_from: a struct field must have an identifier; a missing
name attribute defaults to the identifier in snake case; the rest is
TupleField::try_from. -/
def StructField.try_from (field : OptionAttrsRaw) :
    Except (List DarlingError) StructField :=
  match field.ident with
  | none => .error [DarlingError.custom "missing identifier for struct field"]
  | some ident =>
    (TupleField.try_from
        (if field.name.isNone then
          { field with name := some (toSnakeCase ident) }
        else
          field)).map
      (fun f => { ident := ident, field := f })

/-- darling::ast::Style. -/
inductive Style
  | Unit
  | Tuple
  | Struct

/-- darling::ast::Fields as taken from the derive input. -/
structure FieldsRaw where
  style : Style
  fields : List OptionAttrsRaw

/-- The per-field loop of the Tuple arm of StructFields::try_from: each field
contributes an error for an unexpected identifier and then either a parsed
field or the errors of its conversion, accumulated in field order. -/
def tupleFieldsGo : List OptionAttrsRaw →
    List DarlingError × List TupleField
  | [] => ([], [])
  | field :: rest =>
    match TupleField.try_from field with
    | .ok f =>
      ((if field.ident.isSome then
          [DarlingError.custom "unexpected identifier on tuple struct field"]
        else []) ++ (tupleFieldsGo rest).1,
        f :: (tupleFieldsGo rest).2)
    | .error e =>
      ((if field.ident.isSome then
          [DarlingError.custom "unexpected identifier on tuple struct field"]
        else []) ++ e ++ (tupleFieldsGo rest).1,
        (tupleFieldsGo rest).2)

/-- The per-field loop of the Struct arm of StructFields::try_from: each
field contributes either a parsed field or the errors of its conversion,
accumulated in field order. -/
def structFieldsGo : List OptionAttrsRaw →
    List DarlingError × List StructField
  | [] => ([], [])
  | field :: rest =>
    match StructField.try_from field with
    | .ok f => ((structFieldsGo rest).1, f :: (structFieldsGo rest).2)
    | .error e =>
      (e ++ (structFieldsGo rest).1, (structFieldsGo rest).2)

/-- StructFields::try_from: unit structs must have no fields; tuple and
struct styles convert every field, accumulating all per-field errors, and
fail iff any field failed. -/
def StructFields.try_from (fields : FieldsRaw) :
    Except (List DarlingError) StructFields :=
  match fields.style with
  | .Unit =>
    if fields.fields.isEmpty then
      .ok StructFields.Unit
    else
      .error [DarlingError.custom "unexpected fields on unit struct"]
  | .Tuple =>
    if (tupleFieldsGo fields.fields).1.isEmpty then
      .ok (StructFields.Tuple (tupleFieldsGo fields.fields).2)
    else
      .error (tupleFieldsGo fields.fields).1
  | .Struct =>
    if (structFieldsGo fields.fields).1.isEmpty then
      .ok (StructFields.Struct (structFieldsGo fields.fields).2)
    else
      .error (structFieldsGo fields.fields).1

/-- StructAttrsRaw from command-derive/src/lib.rs: the whole derive input as
darling hands it over.  The data is always struct-shaped here
(darling's supports(struct_any) guarantees it), so the take_struct /
unsupported_shape("enum") path is not modelled. -/
structure StructAttrsRaw where
  ident : String
  name : Option String
  version : Option Nat
  description : Option String
  attrs : List String
  data : FieldsRaw

/-- StructAttrs::from_derive_input: the name defaults to the snake-cased
identifier; a missing description (after the doc fallback) aborts immediately
through the ? operator, before any length validation; the name and
description length violations are accumulated (the source collects a vec of
darling errors and flattens it, which concatenates the per-check singleton
lists); the field conversion runs regardless and its errors are appended
after the accumulated ones; the build succeeds iff no error was collected
anywhere. -/
def StructAttrs.from_derive_input (raw : StructAttrsRaw) :
    Except (List DarlingError) StructAttrs :=
  match raw.description.orElse (fun _ => parse_doc_comments raw.attrs) with
  | none => .error [DarlingError.missing_field "description"]
  | some description =>
    match StructFields.try_from raw.data with
    | .ok fields =>
      if (lenViol (raw.name.getD (toSnakeCase raw.ident)) "name" 1 32 ++
          lenViol description "description" 1 100).isEmpty then
        .ok { ident := raw.ident,
              name := raw.name.getD (toSnakeCase raw.ident),
              version := raw.version.getD 1, description := description,
              fields := fields }
      else
        .error (lenViol (raw.name.getD (toSnakeCase raw.ident)) "name" 1 32 ++
          lenViol description "description" 1 100)
    | .error e =>
      .error (lenViol (raw.name.getD (toSnakeCase raw.ident)) "name" 1 32 ++
        lenViol description "description" 1 100 ++ e)

/-- The whole derive at the value level: a declaration that validates yields
its descriptor together with its invocation parser; a declaration that fails
validation yields only the error and in particular no descriptor. -/
def derive (raw : StructAttrsRaw) :
    Except (List DarlingError)
      (Command × (ApplicationCommand →
        Except TodoBot.CommandError (List FieldValue))) :=
  (StructAttrs.from_derive_input raw).map (fun s => (s.command, s.parse))

/-- The implicit extractor `command::parse_user` as a field extractor: the
resolved user id becomes the field's value. -/
def parse_user_field (command : ApplicationCommand) :
    Except OptionError FieldValue :=
  (parse_user command).map (fun i => FieldValue.plain (NativeValue.user i))

/-- The validated schema the derive produces for TaskCommand in
src/commands.rs: name "task", version 2, doc-comment description, an implicit
user field bound to command::parse_user and an explicit String task field. -/
def TaskCommand.structAttrs : StructAttrs :=
  { ident := "TaskCommand", name := "task", version := 2,
    description := "Add a task to the todo list",
    fields := StructFields.Struct [
      { ident := "user",
        field := { name := "user", ty := FieldType.plain NativeType.userId,
                   option := ParsedOption.Implicit parse_user_field } },
      { ident := "task",
        field := { name := "task", ty := FieldType.plain NativeType.string,
                   option := ParsedOption.Explicit
                     { description := "The task to create",
                       autocomplete := false, min := none, max := none } } }
    ] }

/-- TaskCommand::NAME. -/
def TaskCommand.NAME : String := "task"

/-- The generated TaskCommand::parse. -/
def TaskCommand.parse (command : ApplicationCommand) :
    Except TodoBot.CommandError (List FieldValue) :=
  TaskCommand.structAttrs.parse command

/-- The validated schema the derive produces for DoneCommand in
src/commands.rs: name "done", version 1, doc-comment description, an implicit
user field bound to command::parse_user and an explicit usize task field. -/
def DoneCommand.structAttrs : StructAttrs :=
  { ident := "DoneCommand", name := "done", version := 1,
    description := "Mark a task as done",
    fields := StructFields.Struct [
      { ident := "user",
        field := { name := "user", ty := FieldType.plain NativeType.userId,
                   option := ParsedOption.Implicit parse_user_field } },
      { ident := "task",
        field := { name := "task", ty := FieldType.plain NativeType.usize,
                   option := ParsedOption.Explicit
                     { description :=
                         "The index of the command to mark completed",
                       autocomplete := false, min := none, max := none } } }
    ] }

/-- DoneCommand::NAME. -/
def DoneCommand.NAME : String := "done"

/-- The generated DoneCommand::parse. -/
def DoneCommand.parse (command : ApplicationCommand) :
    Except TodoBot.CommandError (List FieldValue) :=
  DoneCommand.structAttrs.parse command

/-- The descriptor fragment of an explicit field.  The getD default is never
relevant: the lists this is mapped over contain only explicit fields, whose
to_command_option is some. -/
def TupleField.fragment (f : TupleField) : CommandOption :=
  (TupleField.to_command_option f).getD
    (CommandOption.String
      { autocomplete := false, choices := [], description := "", name := "",
        required := false })

/-- Stated from the spec for comparison with the build: the complete set of
length violations one field declaration carries when its effective name is n
(n against the 1..32 bound and, when the field is explicit, its resolved
description against the 1..100 bound). -/
def fieldViolationsN (n : String) (field : OptionAttrsRaw) :
    List DarlingError :=
  lenViol n "name" 1 32 ++
    (match field.implicit with
     | some _ => []
     | none =>
       match field.description.orElse (fun _ => parse_doc_comments field.attrs)
         with
       | some d => lenViol d "description" 1 100
       | none => [])

/-- Stated from the spec for comparison with the build: the complete set of
length violations one struct-style field declaration carries; its effective
name is the name attribute or, when absent, the snake-cased identifier. -/
def fieldViolations (field : OptionAttrsRaw) : List DarlingError :=
  fieldViolationsN (field.name.getD (toSnakeCase (field.ident.getD "")))
    field

/-- Stated from the spec for comparison with the build: the complete set of
length violations of a whole declaration whose description resolves to d, in
declaration order: command name, command description, then each field. -/
def declViolations (raw : StructAttrsRaw) (d : String) : List DarlingError :=
  lenViol (raw.name.getD (toSnakeCase raw.ident)) "name" 1 32 ++
    lenViol d "description" 1 100 ++
    (raw.data.fields.map fieldViolations).flatten

/-- TodoCommand from src/commands.rs: the typed result of dispatch, tagged by
which schema matched. -/
inductive TodoCommand
  | Task (fields : List FieldValue)
  | Done (fields : List FieldValue)

/-- TodoCommand::parse from src/commands.rs: match the invocation's command
name against TaskCommand::NAME then DoneCommand::NAME; a match delegates to
that command's parse, wrapping a field-level failure as CommandError with the
command's name; an unknown name is InvalidCommand carrying the name. -/
def TodoCommand.parse (command : ApplicationCommand) :
    Except Error TodoCommand :=
  if command.data.name = TaskCommand.NAME then
    ((TaskCommand.parse command).map TodoCommand.Task).mapError
      (fun error => Error.CommandError TaskCommand.NAME error)
  else if command.data.name = DoneCommand.NAME then
    ((DoneCommand.parse command).map TodoCommand.Done).mapError
      (fun error => Error.CommandError DoneCommand.NAME error)
  else
    .error (Error.InvalidCommand command.data.name)

/-
Theorems.  Each claim_Cn theorem settles the correspondingly numbered claim;
the lemmas in between are shared supporting facts.
-/

/-- Every character occupies at least one UTF-8 byte. -/
theorem length_le_go (cs : List Char) : cs.length ≤ String.utf8ByteSize.go cs := by
  induction cs with
  | nil => simp [String.utf8ByteSize.go]
  | cons c cs ih =>
    have hc : 0 < c.utf8Size := Char.utf8Size_pos c
    simp only [String.utf8ByteSize.go, List.length_cons]
    omega

/-- The character count of a string never exceeds its UTF-8 byte length. -/
theorem length_le_utf8ByteSize (s : String) : s.length ≤ s.utf8ByteSize := by
  cases s with
  | mk data => simpa [String.length, String.utf8ByteSize] using length_le_go data

/-- A string with no characters has no bytes. -/
theorem utf8ByteSize_eq_zero (s : String) (h : s.length = 0) :
    s.utf8ByteSize = 0 := by
  cases s with
  | mk data =>
    have : data = [] := List.length_eq_zero.mp h
    simp [this, String.utf8ByteSize, String.utf8ByteSize.go]

/-- A name or description whose character count is outside the bounds also
has its byte length outside the bounds, so validate_length rejects it. -/
theorem validate_length_error_of_chars (value nm : String) (max : Nat)
    (h : value.length < 1 ∨ max < value.length) :
    ∃ e, validate_length value nm 1 max = .error e := by
  have hcond : value.utf8ByteSize < 1 ∨ max < value.utf8ByteSize := by
    rcases h with h | h
    · left
      have h0 : value.length = 0 := by omega
      rw [utf8ByteSize_eq_zero value h0]
      omega
    · right
      have := length_le_utf8ByteSize value
      omega
  exact ⟨_, by unfold validate_length; rw [if_pos hcond]⟩

/-- C1: for every supported native option type, parse maps None to Missing,
a wrongly tagged value to InvalidType with the declared tag as expected and
the value's true tag as actual, and a matching value to Ok; the f64 Number
newtype is unwrapped, identifier references are copied by value, strings are
unwrapped, and the i64 payload is taken as is. -/
theorem claim_C1 (t : NativeType) :
    ParseOption.parse t none = .error OptionError.Missing ∧
    (∀ v : CommandOptionValue, v.kind ≠ t.TYPE →
      ParseOption.parse t (some v) =
        .error (OptionError.InvalidType t.TYPE v.kind)) ∧
    (∀ v : CommandOptionValue, v.kind = t.TYPE →
      ∃ x, ParseOption.parse t (some v) = .ok x) ∧
    (∀ n : Float, ParseOption.parse NativeType.f64
        (some (CommandOptionValue.Number n)) = .ok (NativeValue.float n)) ∧
    (∀ i, ParseOption.parse NativeType.userId
        (some (CommandOptionValue.User i)) = .ok (NativeValue.user i)) ∧
    (∀ i, ParseOption.parse NativeType.roleId
        (some (CommandOptionValue.Role i)) = .ok (NativeValue.role i)) ∧
    (∀ i, ParseOption.parse NativeType.channelId
        (some (CommandOptionValue.Channel i)) = .ok (NativeValue.channel i)) ∧
    (∀ i, ParseOption.parse NativeType.mentionableId
        (some (CommandOptionValue.Mentionable i)) =
          .ok (NativeValue.mentionable i)) ∧
    (∀ s, ParseOption.parse NativeType.string
        (some (CommandOptionValue.String s)) = .ok (NativeValue.str s)) ∧
    (∀ n : Int, ParseOption.parse NativeType.i64
        (some (CommandOptionValue.Integer n)) = .ok (NativeValue.int n)) := by
  refine ⟨?_, ?_, ?_, fun n => rfl, fun i => rfl, fun i => rfl, fun i => rfl,
    fun i => rfl, fun s => rfl, fun n => rfl⟩
  · cases t <;> rfl
  · intro v h
    cases t <;> cases v <;>
      first
        | rfl
        | (exfalso; exact h rfl)
  · intro v h
    cases t <;> cases v <;>
      first
        | exact ⟨_, rfl⟩
        | simp [CommandOptionValue.kind, NativeType.TYPE] at h

/-- Witness for C1 at the String capability: an Integer value is rejected as
InvalidType and a String value parses. -/
theorem claim_C1_witness :
    (CommandOptionValue.Integer 5).kind ≠ NativeType.string.TYPE ∧
    ParseOption.parse NativeType.string (some (CommandOptionValue.Integer 5)) =
      .error (OptionError.InvalidType NativeType.string.TYPE
        (CommandOptionValue.Integer 5).kind) ∧
    (CommandOptionValue.String "buy milk").kind = NativeType.string.TYPE ∧
    (∃ x, ParseOption.parse NativeType.string
      (some (CommandOptionValue.String "buy milk")) = .ok x) :=
  ⟨by decide, (claim_C1 NativeType.string).2.1 _ (by decide), by decide,
    (claim_C1 NativeType.string).2.2.1 _ (by decide)⟩

/-- C3: the optional wrapper forces required to false in its descriptor while
delegating the rest, parses an absent input to Ok none, and parses a present
input to exactly the inner capability's result wrapped in some, propagating
errors unchanged. -/
theorem claim_C3 (t : NativeType) (meta : OptionMeta) :
    ParseOptionOptional.option t meta =
      ParseOption.option t { meta with required := false } ∧
    ParseOptionOptional.parse t none = .ok none ∧
    (∀ v, ParseOptionOptional.parse t (some v) =
      (ParseOption.parse t (some v)).map some) ∧
    (∀ v e, ParseOption.parse t (some v) = .error e →
      ParseOptionOptional.parse t (some v) = .error e) ∧
    (∀ v x, ParseOption.parse t (some v) = .ok x →
      ParseOptionOptional.parse t (some v) = .ok (some x)) := by
  refine ⟨rfl, rfl, ?_, ?_, ?_⟩
  · intro v
    cases h : ParseOption.parse t (some v) <;>
      simp [ParseOptionOptional.parse, optionTranspose, h, Except.map]
  · intro v e h
    simp [ParseOptionOptional.parse, optionTranspose, h]
  · intro v x h
    simp [ParseOptionOptional.parse, optionTranspose, h]

/-- Witness for C3 at the String capability: the optional wrapper propagates
an InvalidType error unchanged and wraps a successful parse in some. -/
theorem claim_C3_witness :
    ParseOption.parse NativeType.string (some (CommandOptionValue.Integer 3)) =
      .error (OptionError.InvalidType CommandOptionType.String
        CommandOptionType.Integer) ∧
    ParseOptionOptional.parse NativeType.string
        (some (CommandOptionValue.Integer 3)) =
      .error (OptionError.InvalidType CommandOptionType.String
        CommandOptionType.Integer) ∧
    ParseOption.parse NativeType.string
        (some (CommandOptionValue.String "buy milk")) =
      .ok (NativeValue.str "buy milk") ∧
    ParseOptionOptional.parse NativeType.string
        (some (CommandOptionValue.String "buy milk")) =
      .ok (some (NativeValue.str "buy milk")) :=
  ⟨rfl,
    (claim_C3 NativeType.string
      { name := "task", description := "d", autocomplete := false,
        required := true, min_value := none,
        max_value := none }).2.2.2.1 _ _ rfl,
    rfl,
    (claim_C3 NativeType.string
      { name := "task", description := "d", autocomplete := false,
        required := true, min_value := none,
        max_value := none }).2.2.2.2 _ _ rfl⟩

/-- C8: parse_user prefers the member sub-object's user, falls back to the
top-level user, and fails with Missing exactly when both are absent. -/
theorem claim_C8 (c : ApplicationCommand) :
    (∀ m u, c.member = some m → m.user = some u →
      parse_user c = .ok u.id) ∧
    (c.member.bind PartialMember.user = none →
      ∀ u, c.user = some u → parse_user c = .ok u.id) ∧
    (parse_user c = .error OptionError.Missing ↔
      c.member.bind PartialMember.user = none ∧ c.user = none) := by
  refine ⟨?_, ?_, ?_⟩
  · intro m u hm hu
    unfold parse_user
    rw [hm]
    simp only [Option.some_bind]
    rw [hu]
    rfl
  · intro h u hu
    unfold parse_user
    rw [h, hu]
    rfl
  · constructor
    · intro h
      cases hmu : c.member.bind PartialMember.user with
      | some u =>
        unfold parse_user at h
        rw [hmu] at h
        exact Except.noConfusion h
      | none =>
        cases hu : c.user with
        | some u =>
          unfold parse_user at h
          rw [hmu, hu] at h
          exact Except.noConfusion h
        | none => exact ⟨rfl, rfl⟩
    · intro h
      unfold parse_user
      rw [h.1, h.2]
      rfl

/-- Witness for C8: a member user wins over a differing top-level user, the
top-level user is used when the member has none, and both absent is
Missing. -/
theorem claim_C8_witness :
    parse_user { data := { name := "task", options := [] },
                 member := some { user := some { id := { value := 42 } } },
                 user := some { id := { value := 7 } } } =
      .ok { value := 42 } ∧
    parse_user { data := { name := "task", options := [] },
                 member := some { user := none },
                 user := some { id := { value := 7 } } } =
      .ok { value := 7 } ∧
    parse_user { data := { name := "task", options := [] },
                 member := none, user := none } =
      .error OptionError.Missing :=
  ⟨(claim_C8 _).1 _ _ rfl rfl,
    (claim_C8 { data := { name := "task", options := [] },
                member := some { user := none },
                user := some { id := { value := 7 } } }).2.1 rfl _ rfl,
    (claim_C8 _).2.2.mpr ⟨rfl, rfl⟩⟩

/-- C9: integer-typed fields narrower than 64 bits or unsigned never reject
an out-of-range i64 payload; the `as` cast stores the value reduced modulo
2 ^ w into the type's range, so Integer 300 parsed as u8 is 44 and
Integer (-1) parsed as usize is 2 ^ 64 - 1. -/
theorem claim_C9 (n : Int) :
    (∃ m, ParseOption.parse NativeType.u8
        (some (CommandOptionValue.Integer n)) = .ok (NativeValue.int m) ∧
      0 ≤ m ∧ m < 2 ^ 8 ∧ (m - n) % 2 ^ 8 = 0) ∧
    (∃ m, ParseOption.parse NativeType.i8
        (some (CommandOptionValue.Integer n)) = .ok (NativeValue.int m) ∧
      -(2 ^ 7) ≤ m ∧ m < 2 ^ 7 ∧ (m - n) % 2 ^ 8 = 0) ∧
    (∃ m, ParseOption.parse NativeType.u16
        (some (CommandOptionValue.Integer n)) = .ok (NativeValue.int m) ∧
      0 ≤ m ∧ m < 2 ^ 16 ∧ (m - n) % 2 ^ 16 = 0) ∧
    (∃ m, ParseOption.parse NativeType.i16
        (some (CommandOptionValue.Integer n)) = .ok (NativeValue.int m) ∧
      -(2 ^ 15) ≤ m ∧ m < 2 ^ 15 ∧ (m - n) % 2 ^ 16 = 0) ∧
    (∃ m, ParseOption.parse NativeType.u32
        (some (CommandOptionValue.Integer n)) = .ok (NativeValue.int m) ∧
      0 ≤ m ∧ m < 2 ^ 32 ∧ (m - n) % 2 ^ 32 = 0) ∧
    (∃ m, ParseOption.parse NativeType.i32
        (some (CommandOptionValue.Integer n)) = .ok (NativeValue.int m) ∧
      -(2 ^ 31) ≤ m ∧ m < 2 ^ 31 ∧ (m - n) % 2 ^ 32 = 0) ∧
    (∃ m, ParseOption.parse NativeType.u64
        (some (CommandOptionValue.Integer n)) = .ok (NativeValue.int m) ∧
      0 ≤ m ∧ m < 2 ^ 64 ∧ (m - n) % 2 ^ 64 = 0) ∧
    (∃ m, ParseOption.parse NativeType.usize
        (some (CommandOptionValue.Integer n)) = .ok (NativeValue.int m) ∧
      0 ≤ m ∧ m < 2 ^ 64 ∧ (m - n) % 2 ^ 64 = 0) ∧
    ParseOption.parse NativeType.u8
      (some (CommandOptionValue.Integer 300)) = .ok (NativeValue.int 44) ∧
    ParseOption.parse NativeType.usize
      (some (CommandOptionValue.Integer (-1))) =
        .ok (NativeValue.int (2 ^ 64 - 1)) := by
  refine ⟨⟨_, rfl, ?_⟩, ⟨_, rfl, ?_⟩, ⟨_, rfl, ?_⟩, ⟨_, rfl, ?_⟩,
    ⟨_, rfl, ?_⟩, ⟨_, rfl, ?_⟩, ⟨_, rfl, ?_⟩, ⟨_, rfl, ?_⟩, ?_, ?_⟩
  · simp only [NativeType.intCast]; omega
  · simp only [NativeType.intCast]; omega
  · simp only [NativeType.intCast]; omega
  · simp only [NativeType.intCast]; omega
  · simp only [NativeType.intCast]; omega
  · simp only [NativeType.intCast]; omega
  · simp only [NativeType.intCast]; omega
  · simp only [NativeType.intCast]; omega
  · rfl
  · rfl

/-- Evaluating a field list whose prefix succeeds stops at the first failing
field with that field's error, whatever comes after it. -/
theorem parse_options_list_first_error (command : ApplicationCommand)
    (options : List (String × CommandOptionValue))
    (pre post : List TupleField) (f : TupleField)
    (hpre : ∀ g ∈ pre, ∃ v, TupleField.to_get command options g = .ok v)
    (e : TodoBot.CommandError)
    (hf : TupleField.to_get command options f = .error e) :
    parse_options_list command options (pre ++ f :: post) = .error e := by
  induction pre with
  | nil => simp [parse_options_list, hf]
  | cons g rest ih =>
    obtain ⟨v, hv⟩ := hpre g (List.mem_cons_self g rest)
    have ih2 := ih (fun g2 hg2 => hpre g2 (List.mem_cons_of_mem _ hg2))
    simp [parse_options_list, hv, ih2, Except.map]

/-- C2: invocation parsing walks the fields in schema order and the first
field error aborts the whole parse with no partial result: a failing implicit
extractor yields ImplicitOption with the field's name, a failing explicit
capability parse yields ExplicitOption with the field's name, and the fields
after the failure (the universally quantified post) never influence the
result. -/
theorem claim_C2 (s : StructAttrs) (command : ApplicationCommand)
    (pre post : List TupleField) (f : TupleField)
    (hfields : s.fields.fieldList = pre ++ f :: post)
    (hpre : ∀ g ∈ pre, ∃ v,
      TupleField.to_get command (buildOptionMap command.data.options) g =
        .ok v) :
    (∀ ext e, f.option = ParsedOption.Implicit ext →
      ext command = .error e →
      s.parse command = .error (CommandError.ImplicitOption f.name e)) ∧
    (∀ o e, f.option = ParsedOption.Explicit o →
      FieldType.parse f.ty
          (mapGet (buildOptionMap command.data.options) f.name) = .error e →
      s.parse command = .error (CommandError.ExplicitOption f.name e)) := by
  constructor
  · intro ext e hopt hext
    have hf : TupleField.to_get command (buildOptionMap command.data.options) f
        = .error (CommandError.ImplicitOption f.name e) := by
      simp [TupleField.to_get, hopt, hext, Except.mapError]
    unfold StructAttrs.parse
    rw [hfields]
    exact parse_options_list_first_error _ _ _ _ _ hpre _ hf
  · intro o e hopt hparse
    have hf : TupleField.to_get command (buildOptionMap command.data.options) f
        = .error (CommandError.ExplicitOption f.name e) := by
      simp [TupleField.to_get, hopt, hparse, Except.mapError]
    unfold StructAttrs.parse
    rw [hfields]
    exact parse_options_list_first_error _ _ _ _ _ hpre _ hf

/-- Witness for C2: a single-field schema whose required task option is
absent fails with ExplicitOption task Missing. -/
theorem claim_C2_witness :
    StructAttrs.parse
      { ident := "T", name := "t", version := 1, description := "d",
        fields := StructFields.Tuple [
          { name := "task", ty := FieldType.plain NativeType.string,
            option := ParsedOption.Explicit
              { description := "d", autocomplete := false, min := none,
                max := none } } ] }
      { data := { name := "t", options := [] }, member := none,
        user := none } =
      .error (CommandError.ExplicitOption "task" OptionError.Missing) :=
  (claim_C2
    { ident := "T", name := "t", version := 1, description := "d",
      fields := StructFields.Tuple [
        { name := "task", ty := FieldType.plain NativeType.string,
          option := ParsedOption.Explicit
            { description := "d", autocomplete := false, min := none,
              max := none } } ] }
    { data := { name := "t", options := [] }, member := none, user := none }
    [] []
    { name := "task", ty := FieldType.plain NativeType.string,
      option := ParsedOption.Explicit
        { description := "d", autocomplete := false, min := none,
          max := none } }
    rfl (fun g hg => absurd hg (List.not_mem_nil g))).2 _ _ rfl rfl

/-- Insert-replace then lookup of the same key yields the inserted value. -/
theorem mapGet_mapInsert_self (m : List (String × CommandOptionValue))
    (k : String) (v : CommandOptionValue) :
    mapGet (mapInsert m k v) k = some v := by
  induction m with
  | nil => simp [mapInsert, mapGet]
  | cons p rest ih =>
    obtain ⟨k1, v1⟩ := p
    by_cases h : k1 = k <;> simp [mapInsert, mapGet, h, ih]

/-- Insert-replace of a different key does not change a lookup. -/
theorem mapGet_mapInsert_ne (m : List (String × CommandOptionValue))
    (k k2 : String) (v : CommandOptionValue) (h : k2 ≠ k) :
    mapGet (mapInsert m k2 v) k = mapGet m k := by
  induction m with
  | nil => simp [mapInsert, mapGet, h]
  | cons p rest ih =>
    obtain ⟨k1, v1⟩ := p
    by_cases h1 : k1 = k2
    · subst h1
      simp [mapInsert, mapGet, h]
    · simp [mapInsert, mapGet, h1, ih]

/-- Folding insertions of entries that all carry other names does not change
a lookup. -/
theorem mapGet_foldl_no_key (l : List CommandDataOption) (k : String)
    (h : ∀ o ∈ l, o.name ≠ k) (m : List (String × CommandOptionValue)) :
    mapGet (l.foldl (fun m opt => mapInsert m opt.name opt.value) m) k =
      mapGet m k := by
  induction l generalizing m with
  | nil => rfl
  | cons o rest ih =>
    have h1 : o.name ≠ k := h o (List.mem_cons_self o rest)
    have h2 := ih (fun o2 ho2 => h o2 (List.mem_cons_of_mem _ ho2))
    simp only [List.foldl_cons]
    rw [h2, mapGet_mapInsert_ne _ _ _ _ h1]

/-- C10: with duplicate option names in the invocation list, the name-indexed
map ends up holding the last entry's value (later insertions replace
earlier), and the explicit field's parse consumes exactly that last value,
with no error caused by the duplication itself. -/
theorem claim_C10 (l1 l2 : List CommandDataOption) (k : String)
    (v : CommandOptionValue) (hl2 : ∀ o ∈ l2, o.name ≠ k) :
    mapGet (buildOptionMap (l1 ++ { name := k, value := v } :: l2)) k =
      some v ∧
    (∀ (command : ApplicationCommand) (f : TupleField) (o : ExplicitOption),
      command.data.options = l1 ++ { name := k, value := v } :: l2 →
      f.option = ParsedOption.Explicit o → f.name = k →
      TupleField.to_get command (buildOptionMap command.data.options) f =
        (FieldType.parse f.ty (some v)).mapError
          (fun e => CommandError.ExplicitOption k e)) := by
  have hmain : mapGet (buildOptionMap
      (l1 ++ { name := k, value := v } :: l2)) k = some v := by
    unfold buildOptionMap
    rw [List.foldl_append, List.foldl_cons]
    rw [mapGet_foldl_no_key l2 k hl2]
    exact mapGet_mapInsert_self _ _ _
  refine ⟨hmain, ?_⟩
  intro command f o hcmd hopt hname
  simp only [TupleField.to_get, hopt]
  rw [hname, hcmd, hmain]

/-- Witness for C10: of two task entries the second one wins and the field
parses to its value. -/
theorem claim_C10_witness :
    mapGet (buildOptionMap
      [{ name := "task", value := CommandOptionValue.String "a" },
       { name := "task", value := CommandOptionValue.String "b" }]) "task" =
      some (CommandOptionValue.String "b") ∧
    TupleField.to_get
      { data := { name := "t",
                  options := [
                    { name := "task",
                      value := CommandOptionValue.String "a" },
                    { name := "task",
                      value := CommandOptionValue.String "b" }] },
        member := none, user := none }
      (buildOptionMap
        [{ name := "task", value := CommandOptionValue.String "a" },
         { name := "task", value := CommandOptionValue.String "b" }])
      { name := "task", ty := FieldType.plain NativeType.string,
        option := ParsedOption.Explicit
          { description := "d", autocomplete := false, min := none,
            max := none } } =
      .ok (FieldValue.plain (NativeValue.str "b")) := by
  have h := claim_C10
    [{ name := "task", value := CommandOptionValue.String "a" }] []
    "task" (CommandOptionValue.String "b")
    (fun o ho => absurd ho (List.not_mem_nil o))
  refine ⟨h.1, ?_⟩
  rw [h.2
    { data := { name := "t",
                options := [
                  { name := "task", value := CommandOptionValue.String "a" },
                  { name := "task",
                    value := CommandOptionValue.String "b" }] },
      member := none, user := none }
    { name := "task", ty := FieldType.plain NativeType.string,
      option := ParsedOption.Explicit
        { description := "d", autocomplete := false, min := none,
          max := none } }
    { description := "d", autocomplete := false, min := none, max := none }
    rfl rfl rfl]
  rfl

/-- Collecting the option fragments of a field list equals describing
exactly its explicit fields, in order. -/
theorem filterMap_eq_filter_map_fragment (fields : List TupleField) :
    fields.filterMap TupleField.to_command_option =
      (fields.filter TupleField.is_explicit).map TupleField.fragment := by
  induction fields with
  | nil => rfl
  | cons f rest ih =>
    cases hopt : f.option with
    | Implicit ext =>
      simp [List.filterMap_cons, List.filter_cons,
        TupleField.to_command_option, TupleField.is_explicit, hopt, ih]
    | Explicit o =>
      simp [List.filterMap_cons, List.filter_cons,
        TupleField.to_command_option, TupleField.is_explicit,
        TupleField.fragment, hopt, ih]

/-- C6: the generated descriptor carries the schema's name, description and
version in its header and one option fragment per explicit field only, in
schema field order; implicit fields contribute no fragment, and inserting an
implicit field anywhere leaves the descriptor's options unchanged. -/
theorem claim_C6 (s : StructAttrs) :
    s.command.name = s.name ∧
    s.command.description = s.description ∧
    s.command.version = s.version ∧
    s.command.options =
      (s.fields.fieldList.filter TupleField.is_explicit).map
        TupleField.fragment ∧
    (∀ f : TupleField, f.is_explicit = false →
      TupleField.to_command_option f = none) ∧
    (∀ (l1 l2 : List TupleField) (g : TupleField), g.is_explicit = false →
      (StructAttrs.mk s.ident s.name s.version s.description
          (StructFields.Tuple (l1 ++ g :: l2))).command.options =
        (StructAttrs.mk s.ident s.name s.version s.description
          (StructFields.Tuple (l1 ++ l2))).command.options) := by
  have hnone : ∀ f : TupleField, f.is_explicit = false →
      TupleField.to_command_option f = none := by
    intro f hf
    unfold TupleField.is_explicit at hf
    unfold TupleField.to_command_option
    cases hopt : f.option with
    | Implicit ext => rfl
    | Explicit o => rw [hopt] at hf; simp at hf
  refine ⟨rfl, rfl, rfl, ?_, hnone, ?_⟩
  · cases hf : s.fields with
    | Unit =>
      simp [StructAttrs.command, StructAttrs.command_options,
        StructFields.fieldList, hf]
    | Tuple fields =>
      simp [StructAttrs.command, StructAttrs.command_options,
        StructFields.fieldList, hf, filterMap_eq_filter_map_fragment]
    | Struct fields =>
      simp only [StructAttrs.command, StructAttrs.command_options,
        StructFields.fieldList, hf]
      exact filterMap_eq_filter_map_fragment _
  · intro l1 l2 g hg
    simp [StructAttrs.command, StructAttrs.command_options,
      List.filterMap_append, List.filterMap_cons, hnone g hg]

/-- Witness for C6 on the task schema: its descriptor lists exactly the
explicit fields, the implicit user field yields no fragment, and removing it
does not change the options. -/
theorem claim_C6_witness :
    TaskCommand.structAttrs.command.options =
      (TaskCommand.structAttrs.fields.fieldList.filter
        TupleField.is_explicit).map TupleField.fragment ∧
    TupleField.to_command_option
      { name := "user", ty := FieldType.plain NativeType.userId,
        option := ParsedOption.Implicit parse_user_field } = none ∧
    (StructAttrs.mk "TaskCommand" "task" 2 "Add a task to the todo list"
        (StructFields.Tuple
          [{ name := "user", ty := FieldType.plain NativeType.userId,
             option := ParsedOption.Implicit parse_user_field }])).command.options =
      (StructAttrs.mk "TaskCommand" "task" 2 "Add a task to the todo list"
        (StructFields.Tuple [])).command.options :=
  ⟨(claim_C6 TaskCommand.structAttrs).2.2.2.1,
    (claim_C6 TaskCommand.structAttrs).2.2.2.2.1 _ rfl,
    (claim_C6 TaskCommand.structAttrs).2.2.2.2.2 [] []
      { name := "user", ty := FieldType.plain NativeType.userId,
        option := ParsedOption.Implicit parse_user_field } rfl⟩

/-- C7: dispatch on an unknown command name is InvalidCommand carrying that
name; on a known name, a parse failure is wrapped as CommandError together
with that command's name, and a success is tagged Task or Done by the schema
that matched. -/
theorem claim_C7 (command : ApplicationCommand) :
    (command.data.name ≠ TaskCommand.NAME →
      command.data.name ≠ DoneCommand.NAME →
      TodoCommand.parse command =
        .error (Error.InvalidCommand command.data.name)) ∧
    (command.data.name = TaskCommand.NAME →
      (∀ e, TaskCommand.parse command = .error e →
        TodoCommand.parse command =
          .error (Error.CommandError TaskCommand.NAME e)) ∧
      (∀ v, TaskCommand.parse command = .ok v →
        TodoCommand.parse command = .ok (TodoCommand.Task v))) ∧
    (command.data.name = DoneCommand.NAME →
      (∀ e, DoneCommand.parse command = .error e →
        TodoCommand.parse command =
          .error (Error.CommandError DoneCommand.NAME e)) ∧
      (∀ v, DoneCommand.parse command = .ok v →
        TodoCommand.parse command = .ok (TodoCommand.Done v))) := by
  refine ⟨?_, ?_, ?_⟩
  · intro h1 h2
    unfold TodoCommand.parse
    rw [if_neg h1, if_neg h2]
  · intro h
    constructor
    · intro e he
      unfold TodoCommand.parse
      rw [if_pos h, he]
      rfl
    · intro v hv
      unfold TodoCommand.parse
      rw [if_pos h, hv]
      rfl
  · intro h
    have hne : command.data.name ≠ TaskCommand.NAME := by
      rw [h]; decide
    constructor
    · intro e he
      unfold TodoCommand.parse
      rw [if_neg hne, if_pos h, he]
      rfl
    · intro v hv
      unfold TodoCommand.parse
      rw [if_neg hne, if_pos h, hv]
      rfl

/-- Witness for C7: an unknown name, a fully successful task invocation and
a done invocation whose implicit user extraction fails. -/
theorem claim_C7_witness :
    TodoCommand.parse { data := { name := "nope", options := [] },
                        member := none, user := none } =
      .error (Error.InvalidCommand "nope") ∧
    TodoCommand.parse
      { data := { name := "task",
                  options := [{ name := "task",
                                value := CommandOptionValue.String
                                  "buy milk" }] },
        member := some { user := some { id := { value := 1 } } },
        user := none } =
      .ok (TodoCommand.Task
        [FieldValue.plain (NativeValue.user { value := 1 }),
         FieldValue.plain (NativeValue.str "buy milk")]) ∧
    TodoCommand.parse { data := { name := "done", options := [] },
                        member := none, user := none } =
      .error (Error.CommandError "done"
        (CommandError.ImplicitOption "user" OptionError.Missing)) :=
  ⟨(claim_C7 { data := { name := "nope", options := [] },
               member := none, user := none }).1 (by decide) (by decide),
    ((claim_C7
      { data := { name := "task",
                  options := [{ name := "task",
                                value := CommandOptionValue.String
                                  "buy milk" }] },
        member := some { user := some { id := { value := 1 } } },
        user := none }).2.1 rfl).2 _ rfl,
    ((claim_C7 { data := { name := "done", options := [] },
                 member := none, user := none }).2.2 rfl).1 _ rfl⟩

/-- A character-count bound violation makes the corresponding pushed error
list nonempty. -/
theorem lenViol_ne_nil_of_chars (value nm : String) (max : Nat)
    (h : value.length < 1 ∨ max < value.length) :
    lenViol value nm 1 max ≠ [] := by
  obtain ⟨e, he⟩ := validate_length_error_of_chars value nm max h
  simp [lenViol, he]

/-- A failed TupleField conversion always reports at least one error. -/
theorem try_from_error_ne_nil (field : OptionAttrsRaw)
    (e : List DarlingError) (h : TupleField.try_from field = .error e) :
    e ≠ [] := by
  unfold TupleField.try_from at h
  split at h
  · cases h
    simp
  · split at h
    · split at h
      · exact Except.noConfusion h
      · cases h
        rename_i hne
        simpa using hne
    · split at h
      · cases h
        simp
      · split at h
        · exact Except.noConfusion h
        · cases h
          rename_i hne
          simpa using hne

/-- A failed StructField conversion always reports at least one error. -/
theorem struct_try_from_error_ne_nil (field : OptionAttrsRaw)
    (e : List DarlingError) (h : StructField.try_from field = .error e) :
    e ≠ [] := by
  unfold StructField.try_from at h
  split at h
  · cases h
    simp
  · rename_i ident hident
    cases htf : TupleField.try_from
        (if field.name.isNone then
          { field with name := some (toSnakeCase ident) }
        else field) with
    | ok f => rw [htf] at h; exact Except.noConfusion h
    | error e2 =>
      rw [htf] at h
      cases h
      exact try_from_error_ne_nil _ _ htf

/-- If any struct-style field fails conversion, the accumulated error list
of the field loop is nonempty. -/
theorem structFieldsGo_ne_nil (fields : List OptionAttrsRaw)
    (field : OptionAttrsRaw) (hmem : field ∈ fields)
    (e : List DarlingError) (he : StructField.try_from field = .error e) :
    (structFieldsGo fields).1 ≠ [] := by
  induction fields with
  | nil => exact absurd hmem (List.not_mem_nil field)
  | cons g rest ih =>
    rcases List.mem_cons.mp hmem with rfl | hmem2
    · have hne := struct_try_from_error_ne_nil _ _ he
      unfold structFieldsGo
      rw [he]
      simp [List.append_eq_nil]
      intro hc
      exact absurd hc hne
    · have hrest := ih hmem2
      unfold structFieldsGo
      cases hg : StructField.try_from g with
      | ok f => simpa using hrest
      | error e2 =>
        simp [List.append_eq_nil]
        intro _ hc
        exact absurd hc hrest

/-- If any tuple-style field fails conversion, the accumulated error list of
the field loop is nonempty. -/
theorem tupleFieldsGo_ne_nil (fields : List OptionAttrsRaw)
    (field : OptionAttrsRaw) (hmem : field ∈ fields)
    (e : List DarlingError) (he : TupleField.try_from field = .error e) :
    (tupleFieldsGo fields).1 ≠ [] := by
  induction fields with
  | nil => exact absurd hmem (List.not_mem_nil field)
  | cons g rest ih =>
    rcases List.mem_cons.mp hmem with rfl | hmem2
    · have hne := try_from_error_ne_nil _ _ he
      unfold tupleFieldsGo
      rw [he]
      simp [List.append_eq_nil]
      intro _ hc
      exact absurd hc hne
    · have hrest := ih hmem2
      unfold tupleFieldsGo
      cases hg : TupleField.try_from g with
      | ok f =>
        simp [List.append_eq_nil]
        intro _
        exact hrest
      | error e2 =>
        simp [List.append_eq_nil]
        intro _ _ hc
        exact absurd hc hrest

/-- A failing field conversion makes the whole build fail. -/
theorem from_derive_input_error_of_fields_error (raw : StructAttrsRaw)
    (h : ∃ e2, StructFields.try_from raw.data = .error e2) :
    ∃ e, StructAttrs.from_derive_input raw = .error e := by
  obtain ⟨e2, he2⟩ := h
  unfold StructAttrs.from_derive_input
  split
  · exact ⟨_, rfl⟩
  · rw [he2]
    exact ⟨_, rfl⟩


/-- C5: a command name or resolved description whose character count is out
of bounds (1..32 and 1..100) always fails the build with an error, the same
two bounds fail any field through TupleField conversion, a failing field
fails the whole build (struct and tuple styles), and a failed build yields an
error from derive, hence never a descriptor.  Character counts are used in
the hypotheses; the code compares UTF-8 byte lengths, which are never smaller
than character counts. -/
theorem claim_C5 (raw : StructAttrsRaw) :
    ((raw.name.getD (toSnakeCase raw.ident)).length < 1 ∨
        32 < (raw.name.getD (toSnakeCase raw.ident)).length →
      ∃ e, StructAttrs.from_derive_input raw = .error e) ∧
    (∀ d, raw.description.orElse (fun _ => parse_doc_comments raw.attrs) =
        some d →
      d.length < 1 ∨ 100 < d.length →
      ∃ e, StructAttrs.from_derive_input raw = .error e) ∧
    (∀ field n, OptionAttrsRaw.name field = some n →
      n.length < 1 ∨ 32 < n.length →
      ∃ e, TupleField.try_from field = .error e) ∧
    (∀ field d, OptionAttrsRaw.implicit field = none →
      (OptionAttrsRaw.description field).orElse
        (fun _ => parse_doc_comments (OptionAttrsRaw.attrs field)) = some d →
      d.length < 1 ∨ 100 < d.length →
      ∃ e, TupleField.try_from field = .error e) ∧
    (∀ field e, field ∈ raw.data.fields → raw.data.style = Style.Struct →
      StructField.try_from field = .error e →
      ∃ e2, StructAttrs.from_derive_input raw = .error e2) ∧
    (∀ field e, field ∈ raw.data.fields → raw.data.style = Style.Tuple →
      TupleField.try_from field = .error e →
      ∃ e2, StructAttrs.from_derive_input raw = .error e2) ∧
    (∀ e, StructAttrs.from_derive_input raw = .error e →
      derive raw = .error e) := by
  refine ⟨?_, ?_, ?_, ?_, ?_, ?_, ?_⟩
  · intro h
    have hv := lenViol_ne_nil_of_chars _ "name" 32 h
    unfold StructAttrs.from_derive_input
    split
    · exact ⟨_, rfl⟩
    · split
      · rw [if_neg ?_]
        · exact ⟨_, rfl⟩
        · simp only [List.isEmpty_eq_true, List.append_eq_nil]
          intro hc
          exact hv hc.1
      · exact ⟨_, rfl⟩
  · intro d hd h
    have hv := lenViol_ne_nil_of_chars d "description" 100 h
    unfold StructAttrs.from_derive_input
    split
    · exact ⟨_, rfl⟩
    · rename_i d2 hd2
      rw [hd] at hd2
      injection hd2 with hdd
      subst hdd
      split
      · rw [if_neg ?_]
        · exact ⟨_, rfl⟩
        · simp only [List.isEmpty_eq_true, List.append_eq_nil]
          intro hc
          exact hv hc.2
      · exact ⟨_, rfl⟩
  · intro field n hn h
    have hv := lenViol_ne_nil_of_chars n "name" 32 h
    unfold TupleField.try_from
    split
    · exact ⟨_, rfl⟩
    · rename_i n2 hn2
      rw [hn] at hn2
      injection hn2 with hnn
      subst hnn
      split
      · rw [if_neg ?_]
        · exact ⟨_, rfl⟩
        · simpa using hv
      · split
        · exact ⟨_, rfl⟩
        · rw [if_neg ?_]
          · exact ⟨_, rfl⟩
          · simp only [List.isEmpty_eq_true, List.append_eq_nil]
            intro hc
            exact hv hc.1
  · intro field d himp hd h
    have hv := lenViol_ne_nil_of_chars d "description" 100 h
    unfold TupleField.try_from
    split
    · exact ⟨_, rfl⟩
    · split
      · rename_i impl himpl
        rw [himp] at himpl
        exact Option.noConfusion himpl
      · split
        · rename_i hdesc
          rw [hd] at hdesc
          exact Option.noConfusion hdesc
        · rename_i d2 hdesc
          rw [hd] at hdesc
          injection hdesc with hdd
          subst hdd
          rw [if_neg ?_]
          · exact ⟨_, rfl⟩
          · simp only [List.isEmpty_eq_true, List.append_eq_nil]
            intro hc
            exact hv hc.2
  · intro field e hmem hstyle he
    apply from_derive_input_error_of_fields_error
    have hne := structFieldsGo_ne_nil raw.data.fields field hmem e he
    unfold StructFields.try_from
    split
    · rename_i hsty
      rw [hstyle] at hsty
      exact Style.noConfusion hsty
    · rename_i hsty
      rw [hstyle] at hsty
      exact Style.noConfusion hsty
    · rw [if_neg ?_]
      · exact ⟨_, rfl⟩
      · simpa using hne
  · intro field e hmem hstyle he
    apply from_derive_input_error_of_fields_error
    have hne := tupleFieldsGo_ne_nil raw.data.fields field hmem e he
    unfold StructFields.try_from
    split
    · rename_i hsty
      rw [hstyle] at hsty
      exact Style.noConfusion hsty
    · rw [if_neg ?_]
      · exact ⟨_, rfl⟩
      · simpa using hne
    · rename_i hsty
      rw [hstyle] at hsty
      exact Style.noConfusion hsty
  · intro e he
    unfold derive
    rw [he]
    rfl


/-- Witness for C5: a 40-character name makes the build and the derive fail
even though the description is fine. -/
theorem claim_C5_witness :
    32 < ("aaaaaaaaaaaaaaaaaaaaaaaaaaaaaaaaaaaaaaaa" : String).length ∧
    (∃ e, StructAttrs.from_derive_input
      { ident := "TaskCommand",
        name := some "aaaaaaaaaaaaaaaaaaaaaaaaaaaaaaaaaaaaaaaa",
        version := none, description := some "d", attrs := [],
        data := { style := Style.Unit, fields := [] } } = .error e) ∧
    derive
      { ident := "TaskCommand",
        name := some "aaaaaaaaaaaaaaaaaaaaaaaaaaaaaaaaaaaaaaaa",
        version := none, description := some "d", attrs := [],
        data := { style := Style.Unit, fields := [] } } =
      .error (lenViol "aaaaaaaaaaaaaaaaaaaaaaaaaaaaaaaaaaaaaaaa" "name" 1 32
        ++ lenViol "d" "description" 1 100) :=
  ⟨by decide,
    (claim_C5
      { ident := "TaskCommand",
        name := some "aaaaaaaaaaaaaaaaaaaaaaaaaaaaaaaaaaaaaaaa",
        version := none, description := some "d", attrs := [],
        data := { style := Style.Unit, fields := [] } }).1
      (Or.inr (by decide)),
    (claim_C5
      { ident := "TaskCommand",
        name := some "aaaaaaaaaaaaaaaaaaaaaaaaaaaaaaaaaaaaaaaa",
        version := none, description := some "d", attrs := [],
        data := { style := Style.Unit, fields := [] } }).2.2.2.2.2.2
      (lenViol "aaaaaaaaaaaaaaaaaaaaaaaaaaaaaaaaaaaaaaaa" "name" 1 32
        ++ lenViol "d" "description" 1 100) rfl⟩


/-- Characterization of TupleField conversion for a field with its name
attribute present whose description resolves when explicit: it succeeds iff
the field's length violations are empty and otherwise reports exactly
them. -/
theorem try_from_char (field : OptionAttrsRaw) (n : String)
    (hn : field.name = some n)
    (hok : field.implicit.isSome ∨
      (field.description.orElse
        (fun _ => parse_doc_comments field.attrs)).isSome) :
    (fieldViolationsN n field = [] →
      ∃ f, TupleField.try_from field = .ok f) ∧
    (fieldViolationsN n field ≠ [] →
      TupleField.try_from field = .error (fieldViolationsN n field)) := by
  cases himp : field.implicit with
  | some impl =>
    have hfv : fieldViolationsN n field = lenViol n "name" 1 32 := by
      simp [fieldViolationsN, himp]
    rw [hfv]
    constructor
    · intro hnil
      simp only [TupleField.try_from, hn, himp, hnil]
      exact ⟨_, rfl⟩
    · intro hne
      simp only [TupleField.try_from, hn, himp]
      rw [if_neg (by simpa using hne)]
  | none =>
    rcases hok with hok | hok
    · rw [himp] at hok
      exact absurd hok (by simp)
    · obtain ⟨d, hd⟩ := Option.isSome_iff_exists.mp hok
      have hfv : fieldViolationsN n field =
          lenViol n "name" 1 32 ++ lenViol d "description" 1 100 := by
        simp [fieldViolationsN, himp, hd]
      rw [hfv]
      constructor
      · intro hnil
        simp only [TupleField.try_from, hn, himp, hd, hnil]
        exact ⟨_, rfl⟩
      · intro hne
        simp only [TupleField.try_from, hn, himp, hd]
        rw [if_neg (by simpa using hne)]


/-- Characterization of StructField conversion for a field with an
identifier whose description resolves when explicit: it succeeds iff the
field's length violations (with the snake-cased identifier as name fallback)
are empty and otherwise reports exactly them. -/
theorem struct_try_from_char (field : OptionAttrsRaw) (ident : String)
    (hident : field.ident = some ident)
    (hok : field.implicit.isSome ∨
      (field.description.orElse
        (fun _ => parse_doc_comments field.attrs)).isSome) :
    (fieldViolations field = [] →
      ∃ sf, StructField.try_from field = .ok sf) ∧
    (fieldViolations field ≠ [] →
      StructField.try_from field = .error (fieldViolations field)) := by
  obtain ⟨fid, fty, fname, fdesc, fimp, fauto, fmin, fmax, fattrs⟩ := field
  have hid : fid = some ident := hident
  subst hid
  cases fname with
  | some n =>
    have h := try_from_char
      ⟨some ident, fty, some n, fdesc, fimp, fauto, fmin, fmax, fattrs⟩
      n rfl hok
    have hfv : fieldViolations
        ⟨some ident, fty, some n, fdesc, fimp, fauto, fmin, fmax, fattrs⟩ =
        fieldViolationsN n
          ⟨some ident, fty, some n, fdesc, fimp, fauto, fmin, fmax,
            fattrs⟩ := rfl
    rw [hfv]
    constructor
    · intro hnil
      obtain ⟨f, hf⟩ := h.1 hnil
      refine ⟨{ ident := ident, field := f }, ?_⟩
      simp [StructField.try_from, hf, Except.map]
    · intro hne
      have hf := h.2 hne
      simp [StructField.try_from, hf, Except.map]
  | none =>
    have h := try_from_char
      ⟨some ident, fty, some (toSnakeCase ident), fdesc, fimp, fauto, fmin,
        fmax, fattrs⟩
      (toSnakeCase ident) rfl hok
    have hfv : fieldViolations
        ⟨some ident, fty, none, fdesc, fimp, fauto, fmin, fmax, fattrs⟩ =
        fieldViolationsN (toSnakeCase ident)
          ⟨some ident, fty, some (toSnakeCase ident), fdesc, fimp, fauto,
            fmin, fmax, fattrs⟩ := rfl
    rw [hfv]
    constructor
    · intro hnil
      obtain ⟨f, hf⟩ := h.1 hnil
      refine ⟨{ ident := ident, field := f }, ?_⟩
      simp [StructField.try_from, hf, Except.map]
    · intro hne
      have hf := h.2 hne
      simp [StructField.try_from, hf, Except.map]


/-- Under the same side conditions, the struct field loop accumulates
exactly the concatenation of every field's length violations, in field
order. -/
theorem structFieldsGo_char (fields : List OptionAttrsRaw)
    (h : ∀ field ∈ fields, (OptionAttrsRaw.ident field).isSome ∧
      ((OptionAttrsRaw.implicit field).isSome ∨
        ((OptionAttrsRaw.description field).orElse
          (fun _ => parse_doc_comments
            (OptionAttrsRaw.attrs field))).isSome)) :
    (structFieldsGo fields).1 = (fields.map fieldViolations).flatten := by
  induction fields with
  | nil => rfl
  | cons g rest ih =>
    obtain ⟨hident, hok⟩ := h g (List.mem_cons_self g rest)
    obtain ⟨ident, hid⟩ := Option.isSome_iff_exists.mp hident
    have hg := struct_try_from_char g ident hid hok
    have ihr := ih (fun f hf => h f (List.mem_cons_of_mem _ hf))
    by_cases hviol : fieldViolations g = []
    · obtain ⟨sf, hsf⟩ := hg.1 hviol
      unfold structFieldsGo
      rw [hsf]
      simp [hviol, ihr]
    · have hsf := hg.2 hviol
      unfold structFieldsGo
      rw [hsf]
      simp [ihr]

/-- C4 as amended: for a struct-style declaration whose command description
resolves and whose fields all carry an identifier and either an implicit
extractor or a resolvable description, the build accumulates and reports the
complete set of name/description length violations across the command and
all of its fields in one failure, and succeeds when there are none.  (The
unamended claim is refuted by claim_C4_counterexample: a missing description
short-circuits, dropping the other violations.) -/
theorem claim_C4 (raw : StructAttrsRaw) (d : String)
    (hstyle : raw.data.style = Style.Struct)
    (hd : raw.description.orElse (fun _ => parse_doc_comments raw.attrs) =
      some d)
    (hfields : ∀ field ∈ raw.data.fields,
      (OptionAttrsRaw.ident field).isSome ∧
      ((OptionAttrsRaw.implicit field).isSome ∨
        ((OptionAttrsRaw.description field).orElse
          (fun _ => parse_doc_comments
            (OptionAttrsRaw.attrs field))).isSome)) :
    (declViolations raw d = [] →
      ∃ s, StructAttrs.from_derive_input raw = .ok s) ∧
    (declViolations raw d ≠ [] →
      StructAttrs.from_derive_input raw = .error (declViolations raw d)) := by
  have hgo := structFieldsGo_char raw.data.fields hfields
  have hdecl : declViolations raw d =
      (lenViol (raw.name.getD (toSnakeCase raw.ident)) "name" 1 32 ++
        lenViol d "description" 1 100) ++
        (raw.data.fields.map fieldViolations).flatten := by
    simp [declViolations, List.append_assoc]
  constructor
  · intro hnil
    rw [hdecl] at hnil
    rw [List.append_eq_nil] at hnil
    obtain ⟨hcmd, hflat⟩ := hnil
    simp only [StructAttrs.from_derive_input, hd]
    simp only [StructFields.try_from, hstyle, hgo, hflat]
    simp [hcmd]
  · intro hne
    rw [hdecl] at hne ⊢
    by_cases hflat : (raw.data.fields.map fieldViolations).flatten = []
    · rw [hflat] at hne ⊢
      rw [List.append_nil] at hne ⊢
      simp only [StructAttrs.from_derive_input, hd]
      simp only [StructFields.try_from, hstyle, hgo, hflat]
      simp only [List.isEmpty_nil, if_pos]
      rw [if_neg (by simpa using hne)]
    · simp only [StructAttrs.from_derive_input, hd]
      simp only [StructFields.try_from, hstyle, hgo]
      rw [if_neg (by simpa using hflat)]


/-- Counterexample to C4 as stated: this declaration violates two rules at
once (its 40-byte name exceeds the 32 limit, as the first two conjuncts
show, and its description is missing), yet the build reports only the
missing description, not the complete set of violations. -/
theorem claim_C4_counterexample :
    32 < ("aaaaaaaaaaaaaaaaaaaaaaaaaaaaaaaaaaaaaaaa" : String).utf8ByteSize ∧
    (∃ e, validate_length "aaaaaaaaaaaaaaaaaaaaaaaaaaaaaaaaaaaaaaaa"
      "name" 1 32 = .error e) ∧
    StructAttrs.from_derive_input
      { ident := "TaskCommand",
        name := some "aaaaaaaaaaaaaaaaaaaaaaaaaaaaaaaaaaaaaaaa",
        version := none, description := none, attrs := [],
        data := { style := Style.Unit, fields := [] } } =
      .error [DarlingError.missing_field "description"] :=
  ⟨by decide, ⟨_, rfl⟩, rfl⟩

/-- Witness for C4 as amended: a declaration with a 40-character name and a
101-character description fails with exactly its nonempty violation set. -/
theorem claim_C4_witness :
    declViolations
      { ident := "TaskCommand",
        name := some "aaaaaaaaaaaaaaaaaaaaaaaaaaaaaaaaaaaaaaaa",
        version := none,
        description := some (String.mk (List.replicate 101 'b')),
        attrs := [],
        data := { style := Style.Struct, fields := [] } }
      (String.mk (List.replicate 101 'b')) ≠ [] ∧
    StructAttrs.from_derive_input
      { ident := "TaskCommand",
        name := some "aaaaaaaaaaaaaaaaaaaaaaaaaaaaaaaaaaaaaaaa",
        version := none,
        description := some (String.mk (List.replicate 101 'b')),
        attrs := [],
        data := { style := Style.Struct, fields := [] } } =
      .error (declViolations
        { ident := "TaskCommand",
          name := some "aaaaaaaaaaaaaaaaaaaaaaaaaaaaaaaaaaaaaaaa",
          version := none,
          description := some (String.mk (List.replicate 101 'b')),
          attrs := [],
          data := { style := Style.Struct, fields := [] } }
        (String.mk (List.replicate 101 'b'))) := by
  have h := claim_C4
    { ident := "TaskCommand",
      name := some "aaaaaaaaaaaaaaaaaaaaaaaaaaaaaaaaaaaaaaaa",
      version := none,
      description := some (String.mk (List.replicate 101 'b')),
      attrs := [],
      data := { style := Style.Struct, fields := [] } }
    (String.mk (List.replicate 101 'b'))
    rfl rfl (fun field hf => absurd hf (List.not_mem_nil field))
  have hne : declViolations
      { ident := "TaskCommand",
        name := some "aaaaaaaaaaaaaaaaaaaaaaaaaaaaaaaaaaaaaaaa",
        version := none,
        description := some (String.mk (List.replicate 101 'b')),
        attrs := [],
        data := { style := Style.Struct, fields := [] } }
      (String.mk (List.replicate 101 'b')) ≠ [] := by decide
  exact ⟨hne, h.2 hne⟩

end TodoBot
